import Mathlib

/-!
Verification of the budget-tracker core: transaction identity, the CSV
ledger store, institution parser strategies, registry dispatch and the
field extractors, shallowly embedded from the Python sources under `app/`.
-/

namespace BudgetTracker

/-! ### Decimal digit printing (Python zero-padded decimal formatting) -/

/-- The ASCII character of a decimal digit. -/
def digitChar10 (d : Nat) : Char := Char.ofNat (48 + d)

/-- Little-endian base-10 digits with an explicit fuel so that the kernel
can evaluate it (`Nat.digits` is defined by well-founded recursion and does
not reduce definitionally). -/
def digitsFuel : Nat → Nat → List Nat
  | 0, _ => []
  | _ + 1, 0 => []
  | fuel + 1, n + 1 => (n + 1) % 10 :: digitsFuel fuel ((n + 1) / 10)

/-- Little-endian base-10 digits of `n`. -/
def digits10 (n : Nat) : List Nat := digitsFuel n n

theorem digitsFuel_eq (fuel : ℕ) : ∀ n ≤ fuel, digitsFuel fuel n = Nat.digits 10 n := by
  induction fuel with
  | zero =>
    intro n hn
    obtain rfl : n = 0 := Nat.le_zero.mp hn
    simp [digitsFuel]
  | succ fuel ih =>
    intro n hn
    match n with
    | 0 => simp [digitsFuel]
    | m + 1 =>
      have h1 : (m + 1) / 10 < m + 1 := Nat.div_lt_self (by omega) (by omega)
      have hdiv : (m + 1) / 10 ≤ fuel := by omega
      rw [digitsFuel, ih _ hdiv,
        Nat.digits_def' (by norm_num : (1 : ℕ) < 10) (Nat.succ_pos m)]

theorem digits10_eq (n : ℕ) : digits10 n = Nat.digits 10 n :=
  digitsFuel_eq n n le_rfl

/-- Big-endian decimal digits of `n`, zero-padded on the left to width `w`. -/
def padDigits (w n : Nat) : List Nat :=
  List.replicate (w - (digits10 n).length) 0 ++ (digits10 n).reverse

/-- Zero-padded decimal rendering of `n` to width `w`, as Python formats
datetime components. -/
def padNum (w n : Nat) : String := String.mk ((padDigits w n).map digitChar10)

theorem ofDigits_replicate_zero (b k : ℕ) :
    Nat.ofDigits b (List.replicate k 0) = 0 := by
  induction k with
  | zero => simp [Nat.ofDigits]
  | succ k ih => simp [List.replicate_succ, Nat.ofDigits, ih]

theorem digits_len_le_of_lt_pow {w n : ℕ} (h : n < 10 ^ w) :
    (Nat.digits 10 n).length ≤ w := by
  rcases Nat.eq_zero_or_pos n with rfl | hn
  · simp
  · by_contra hlen
    push_neg at hlen
    have h1 : 10 ^ (Nat.digits 10 n).length ≤ 10 * n :=
      Nat.base_pow_length_digits_le 10 n (by norm_num) hn.ne'
    have h2 : 10 * n < 10 * 10 ^ w := Nat.mul_lt_mul_of_pos_left h (by norm_num)
    have h3 : 10 ^ (w + 1) ≤ 10 ^ (Nat.digits 10 n).length :=
      Nat.pow_le_pow_right (by norm_num) hlen
    have h4 : (10 : ℕ) ^ (w + 1) = 10 * 10 ^ w := by ring
    omega

theorem padDigits_length {w n : ℕ} (h : n < 10 ^ w) : (padDigits w n).length = w := by
  have hle := digits_len_le_of_lt_pow h
  simp only [padDigits, digits10_eq, List.length_append, List.length_replicate,
    List.length_reverse]
  omega

theorem padDigits_inj {w m n : ℕ}
    (h : padDigits w m = padDigits w n) : m = n := by
  have h' := congrArg List.reverse h
  simp only [padDigits, digits10_eq, List.reverse_append, List.reverse_reverse,
    List.reverse_replicate] at h'
  have hv := congrArg (Nat.ofDigits 10) h'
  rw [Nat.ofDigits_append, Nat.ofDigits_append, ofDigits_replicate_zero,
    ofDigits_replicate_zero, Nat.ofDigits_digits, Nat.ofDigits_digits] at hv
  simpa using hv

theorem mem_padDigits_lt {w n d : ℕ} (hd : d ∈ padDigits w n) : d < 10 := by
  rw [padDigits, digits10_eq] at hd
  rcases List.mem_append.mp hd with h | h
  · rcases List.eq_of_mem_replicate h with rfl; norm_num
  · exact Nat.digits_lt_base (by norm_num) (List.mem_reverse.mp h)

theorem digitChar10_injOn :
    ∀ a, a < 10 → ∀ b, b < 10 → digitChar10 a = digitChar10 b → a = b := by decide

theorem map_digitChar10_inj : ∀ l1 l2 : List ℕ, (∀ d ∈ l1, d < 10) →
    (∀ d ∈ l2, d < 10) → l1.map digitChar10 = l2.map digitChar10 → l1 = l2
  | [], [], _, _, _ => rfl
  | [], _ :: _, _, _, h => by simp at h
  | _ :: _, [], _, _, h => by simp at h
  | a :: l1, b :: l2, h1, h2, h => by
    simp only [List.map_cons, List.cons.injEq] at h
    have hab := digitChar10_injOn a (h1 a (by simp)) b (h2 b (by simp)) h.1
    subst hab
    have := map_digitChar10_inj l1 l2 (fun d hd => h1 d (by simp [hd]))
      (fun d hd => h2 d (by simp [hd])) h.2
    rw [this]

theorem padChars_inj {w m n : ℕ}
    (h : (padDigits w m).map digitChar10 = (padDigits w n).map digitChar10) :
    m = n :=
  padDigits_inj (map_digitChar10_inj _ _ (fun _ hd => mem_padDigits_lt hd)
    (fun _ hd => mem_padDigits_lt hd) h)

theorem padChars_length {w n : ℕ} (h : n < 10 ^ w) :
    ((padDigits w n).map digitChar10).length = w := by
  simp [padDigits_length h]

/-! ### Naive datetimes and `isoformat` -/

/-- A naive `datetime.datetime` without microseconds (every timestamp the
strategies construct has zero microseconds, so `isoformat` omits them). -/
structure DateTime where
  year : Nat
  month : Nat
  day : Nat
  hour : Nat
  minute : Nat
  second : Nat
deriving DecidableEq, Repr

/-- Python `datetime` range invariants (`MINYEAR = 1`, `MAXYEAR = 9999`). -/
def DateTime.Valid (d : DateTime) : Prop :=
  1 ≤ d.year ∧ d.year ≤ 9999 ∧ 1 ≤ d.month ∧ d.month ≤ 12 ∧ 1 ≤ d.day ∧
    d.day ≤ 31 ∧ d.hour ≤ 23 ∧ d.minute ≤ 59 ∧ d.second ≤ 59

instance (d : DateTime) : Decidable d.Valid := by
  unfold DateTime.Valid; infer_instance

/-- `datetime.isoformat()` for a microsecond-free value: `YYYY-MM-DDTHH:MM:SS`. -/
def DateTime.isoformat (d : DateTime) : String :=
  padNum 4 d.year ++ "-" ++ padNum 2 d.month ++ "-" ++ padNum 2 d.day ++ "T" ++
    padNum 2 d.hour ++ ":" ++ padNum 2 d.minute ++ ":" ++ padNum 2 d.second

theorem isoformat_data (d : DateTime) :
    d.isoformat.data =
      (padDigits 4 d.year).map digitChar10 ++ '-' ::
      ((padDigits 2 d.month).map digitChar10 ++ '-' ::
      ((padDigits 2 d.day).map digitChar10 ++ 'T' ::
      ((padDigits 2 d.hour).map digitChar10 ++ ':' ::
      ((padDigits 2 d.minute).map digitChar10 ++ ':' ::
      (padDigits 2 d.second).map digitChar10)))) := by
  simp [DateTime.isoformat, padNum, String.data_append]

theorem isoformat_inj {d1 d2 : DateTime} (h1 : d1.Valid) (h2 : d2.Valid)
    (h : d1.isoformat = d2.isoformat) : d1 = d2 := by
  obtain ⟨ha1, ha2, ha3, ha4, ha5, ha6, ha7, ha8, ha9⟩ := h1
  obtain ⟨hb1, hb2, hb3, hb4, hb5, hb6, hb7, hb8, hb9⟩ := h2
  have hy1 : d1.year < 10 ^ 4 := by norm_num; omega
  have hy2 : d2.year < 10 ^ 4 := by norm_num; omega
  have hmo1 : d1.month < 10 ^ 2 := by norm_num; omega
  have hmo2 : d2.month < 10 ^ 2 := by norm_num; omega
  have hd1 : d1.day < 10 ^ 2 := by norm_num; omega
  have hd2 : d2.day < 10 ^ 2 := by norm_num; omega
  have hh1 : d1.hour < 10 ^ 2 := by norm_num; omega
  have hh2 : d2.hour < 10 ^ 2 := by norm_num; omega
  have hmi1 : d1.minute < 10 ^ 2 := by norm_num; omega
  have hmi2 : d2.minute < 10 ^ 2 := by norm_num; omega
  have hs1 : d1.second < 10 ^ 2 := by norm_num; omega
  have hs2 : d2.second < 10 ^ 2 := by norm_num; omega
  have hdata := congrArg String.data h
  rw [isoformat_data, isoformat_data] at hdata
  obtain ⟨ey, hdata⟩ := List.append_inj hdata
    (by rw [padChars_length hy1, padChars_length hy2])
  simp only [List.cons.injEq, true_and] at hdata
  obtain ⟨emo, hdata⟩ := List.append_inj hdata
    (by rw [padChars_length hmo1, padChars_length hmo2])
  simp only [List.cons.injEq, true_and] at hdata
  obtain ⟨ed, hdata⟩ := List.append_inj hdata
    (by rw [padChars_length hd1, padChars_length hd2])
  simp only [List.cons.injEq, true_and] at hdata
  obtain ⟨eh, hdata⟩ := List.append_inj hdata
    (by rw [padChars_length hh1, padChars_length hh2])
  simp only [List.cons.injEq, true_and] at hdata
  obtain ⟨emi, hdata⟩ := List.append_inj hdata
    (by rw [padChars_length hmi1, padChars_length hmi2])
  simp only [List.cons.injEq, true_and] at hdata
  have := padChars_inj ey
  have := padChars_inj emo
  have := padChars_inj ed
  have := padChars_inj eh
  have := padChars_inj emi
  have := padChars_inj hdata
  cases d1; cases d2; simp_all

/-! ### The Transaction model and its identity (`app/core/models.py`) -/

/-- A Python `float` value, represented by its shortest round-trip decimal
`repr` string. CPython's `repr` is injective on float values (shortest
round-trip printing), so equality of floats coincides with equality of this
field, and an f-string interpolates exactly this string. -/
structure PyFloat where
  pyRepr : String
deriving DecidableEq, Repr

/-- `Transaction` (pydantic model, `app/core/models.py`). -/
structure Transaction where
  timestamp : DateTime
  merchant : String
  amount : PyFloat
  currency : String
  institution : String
  payment_instrument : String
  notes : String := ""
  category : Option String := none
deriving DecidableEq, Repr

/-- The pre-image of `Transaction.global_id`: the six identity fields
serialized and concatenated in field order (`models.py`, `unique_str`). -/
def Transaction.uniqueStr (t : Transaction) : String :=
  t.timestamp.isoformat ++ t.merchant ++ t.amount.pyRepr ++ t.currency ++
    t.institution ++ t.payment_instrument

/-- `Transaction.global_id`. SHA-256 comes from the external `hashlib`
library, so it is abstracted as the parameter `hash`; its collision freedom
(injectivity) is the hypothesis under which the identity claims are stated. -/
def Transaction.global_id (hash : String → String) (t : Transaction) : String :=
  hash t.uniqueStr

/-- The six identity fields of two transactions agree. -/
def KeyFieldsEq (t1 t2 : Transaction) : Prop :=
  t1.timestamp = t2.timestamp ∧ t1.merchant = t2.merchant ∧
    t1.amount = t2.amount ∧ t1.currency = t2.currency ∧
    t1.institution = t2.institution ∧
    t1.payment_instrument = t2.payment_instrument

/-- Exactly one of the six identity fields differs; the other five agree. -/
def OneKeyFieldDiffers (t1 t2 : Transaction) : Prop :=
  (t1.timestamp ≠ t2.timestamp ∧ t1.merchant = t2.merchant ∧
    t1.amount = t2.amount ∧ t1.currency = t2.currency ∧
    t1.institution = t2.institution ∧
    t1.payment_instrument = t2.payment_instrument) ∨
  (t1.timestamp = t2.timestamp ∧ t1.merchant ≠ t2.merchant ∧
    t1.amount = t2.amount ∧ t1.currency = t2.currency ∧
    t1.institution = t2.institution ∧
    t1.payment_instrument = t2.payment_instrument) ∨
  (t1.timestamp = t2.timestamp ∧ t1.merchant = t2.merchant ∧
    t1.amount ≠ t2.amount ∧ t1.currency = t2.currency ∧
    t1.institution = t2.institution ∧
    t1.payment_instrument = t2.payment_instrument) ∨
  (t1.timestamp = t2.timestamp ∧ t1.merchant = t2.merchant ∧
    t1.amount = t2.amount ∧ t1.currency ≠ t2.currency ∧
    t1.institution = t2.institution ∧
    t1.payment_instrument = t2.payment_instrument) ∨
  (t1.timestamp = t2.timestamp ∧ t1.merchant = t2.merchant ∧
    t1.amount = t2.amount ∧ t1.currency = t2.currency ∧
    t1.institution ≠ t2.institution ∧
    t1.payment_instrument = t2.payment_instrument) ∨
  (t1.timestamp = t2.timestamp ∧ t1.merchant = t2.merchant ∧
    t1.amount = t2.amount ∧ t1.currency = t2.currency ∧
    t1.institution = t2.institution ∧
    t1.payment_instrument ≠ t2.payment_instrument)

theorem string_eq_of_data {s t : String} (h : s.data = t.data) : s = t := by
  cases s; cases t; exact congrArg String.mk h

theorem str_append_cancel_left {a b c : String} (h : a ++ b = a ++ c) : b = c := by
  have hd := congrArg String.data h
  rw [String.data_append, String.data_append] at hd
  exact string_eq_of_data (List.append_cancel_left hd)

theorem str_append_cancel_right {a b c : String} (h : a ++ c = b ++ c) : a = b := by
  have hd := congrArg String.data h
  rw [String.data_append, String.data_append] at hd
  exact string_eq_of_data (List.append_cancel_right hd)

theorem pyFloat_eq {a b : PyFloat} (h : a.pyRepr = b.pyRepr) : a = b := by
  cases a; cases b; exact congrArg PyFloat.mk h

/-- C1: `Transaction.global_id` is a deterministic function of exactly the
six identity fields: two transactions agreeing on timestamp, merchant,
amount, currency, institution and payment_instrument share it regardless of
their notes and category, and — assuming collision freedom (injectivity) of
SHA-256 — two transactions with valid timestamps that differ in exactly one
of those six fields have distinct `global_id`s. -/
theorem global_id_spec (hash : String → String) (hinj : Function.Injective hash)
    (t1 t2 : Transaction) (h1 : t1.timestamp.Valid) (h2 : t2.timestamp.Valid) :
    (KeyFieldsEq t1 t2 → t1.global_id hash = t2.global_id hash) ∧
    (OneKeyFieldDiffers t1 t2 → t1.global_id hash ≠ t2.global_id hash) := by
  constructor
  · rintro ⟨e1, e2, e3, e4, e5, e6⟩
    unfold Transaction.global_id Transaction.uniqueStr
    rw [e1, e2, e3, e4, e5, e6]
  · intro hdiff heq
    have hu : t1.uniqueStr = t2.uniqueStr := hinj heq
    unfold Transaction.uniqueStr at hu
    rcases hdiff with ⟨hne, e2, e3, e4, e5, e6⟩ | ⟨e1, hne, e3, e4, e5, e6⟩ |
      ⟨e1, e2, hne, e4, e5, e6⟩ | ⟨e1, e2, e3, hne, e5, e6⟩ |
      ⟨e1, e2, e3, e4, hne, e6⟩ | ⟨e1, e2, e3, e4, e5, hne⟩
    · rw [e2, e3, e4, e5, e6] at hu
      exact hne (isoformat_inj h1 h2 (str_append_cancel_right
        (str_append_cancel_right (str_append_cancel_right
          (str_append_cancel_right (str_append_cancel_right hu))))))
    · rw [e1, e3, e4, e5, e6] at hu
      exact hne (str_append_cancel_left (str_append_cancel_right
        (str_append_cancel_right (str_append_cancel_right
          (str_append_cancel_right hu)))))
    · rw [e1, e2, e4, e5, e6] at hu
      exact hne (pyFloat_eq (str_append_cancel_left (str_append_cancel_right
        (str_append_cancel_right (str_append_cancel_right hu)))))
    · rw [e1, e2, e3, e5, e6] at hu
      exact hne (str_append_cancel_left (str_append_cancel_right
        (str_append_cancel_right hu)))
    · rw [e1, e2, e3, e4, e6] at hu
      exact hne (str_append_cancel_left (str_append_cancel_right hu))
    · rw [e1, e2, e3, e4, e5] at hu
      exact hne (str_append_cancel_left hu)

/-- Witness for C1 at concrete transactions and the identity as an injective
stand-in for the hash: notes/category do not affect the id; a merchant
difference does. -/
theorem global_id_spec_witness :
    (Transaction.global_id (fun s => s)
        ⟨⟨2026, 1, 3, 18, 42, 0⟩, "STORE", ⟨"12.5"⟩, "USD", "BAC", "1234", "note a", some "food"⟩ =
      Transaction.global_id (fun s => s)
        ⟨⟨2026, 1, 3, 18, 42, 0⟩, "STORE", ⟨"12.5"⟩, "USD", "BAC", "1234", "note b", none⟩) ∧
    Transaction.global_id (fun s => s)
        ⟨⟨2026, 1, 3, 18, 42, 0⟩, "STORE", ⟨"12.5"⟩, "USD", "BAC", "1234", "", none⟩ ≠
      Transaction.global_id (fun s => s)
        ⟨⟨2026, 1, 3, 18, 42, 0⟩, "OTHER", ⟨"12.5"⟩, "USD", "BAC", "1234", "", none⟩ :=
  ⟨(global_id_spec (fun s => s) (fun _ _ h => h) _ _ (by decide) (by decide)).1
      ⟨rfl, rfl, rfl, rfl, rfl, rfl⟩,
    (global_id_spec (fun s => s) (fun _ _ h => h) _ _ (by decide) (by decide)).2
      (Or.inr (Or.inl ⟨rfl, by decide, rfl, rfl, rfl, rfl⟩))⟩

/-! ### The CSV ledger store (`app/repositories/csv_repo.py`)

The persisted CSV file is modeled by the list of transactions whose rows it
holds: every row this repository writes is produced from a `Transaction` by
`_transaction_to_row`, and `get_all` parses such rows back losslessly (the
stored columns are exactly images of the transaction's fields, and
reparsing an `isoformat` timestamp or a float `repr` recovers the value),
so a `List Transaction` in persisted row order is the repository state.
The store is parameterized by the same abstract `hash` as
`Transaction.global_id`. -/

namespace CSVRepository

/-- `_transaction_to_row`: the eight CSV column values written for a
transaction, in `FIELDNAMES` order. -/
def _transaction_to_row (hash : String → String) (t : Transaction) : List String :=
  [t.global_id hash, t.timestamp.isoformat, t.merchant, t.amount.pyRepr,
    t.currency, t.institution, t.payment_instrument, t.notes]

/-- `_get_existing_ids`: the stored `global_id` column values (the source
collects them into a set; a list queried by membership models it). -/
def existingIds (hash : String → String) (ledger : List Transaction) : List String :=
  ledger.map (Transaction.global_id hash)

/-- `exists`: is a transaction with the given id currently persisted? -/
def existsId (hash : String → String) (ledger : List Transaction) (id : String) :
    Bool :=
  decide (id ∈ existingIds hash ledger)

/-- `save`: insert iff absent (append a row to the CSV); returns whether the
insert happened. -/
def save (hash : String → String) (ledger : List Transaction) (t : Transaction) :
    Bool × List Transaction :=
  if existsId hash ledger (t.global_id hash) then (false, ledger)
  else (true, ledger ++ [t])

/-- The loop of `save_many`: walk the batch, appending each transaction whose
id is not in the duplicate set and extending that set; returns the number
written and the rows appended. -/
def saveManyAux (hash : String → String) (ids : List String) :
    List Transaction → Nat × List Transaction
  | [] => (0, [])
  | t :: ts =>
    if t.global_id hash ∈ ids then saveManyAux hash ids ts
    else
      let r := saveManyAux hash (t.global_id hash :: ids) ts
      (r.1 + 1, t :: r.2)

/-- `save_many`: bulk insert against one loaded duplicate set; returns the
number actually inserted. -/
def save_many (hash : String → String) (ledger : List Transaction)
    (ts : List Transaction) : Nat × List Transaction :=
  let r := saveManyAux hash (existingIds hash ledger) ts
  (r.1, ledger ++ r.2)

/-- `delete`: drop every row whose identity equals `id`; the file is
rewritten (and `True` returned) only when the row count changed. -/
def delete (hash : String → String) (ledger : List Transaction) (id : String) :
    Bool × List Transaction :=
  let filtered := ledger.filter (fun t => t.global_id hash != id)
  if filtered.length = ledger.length then (false, ledger) else (true, filtered)

/-- The scan inside `update`: replace the first record whose identity equals
`id` with `t`, reporting whether one was found. -/
def replaceFirst (hash : String → String) (id : String) (t : Transaction) :
    List Transaction → Bool × List Transaction
  | [] => (false, [])
  | x :: xs =>
    if x.global_id hash = id then (true, t :: xs)
    else
      let r := replaceFirst hash id t xs
      (r.1, x :: r.2)

/-- `update`: replace the first record whose identity equals `id`; the file
is rewritten from the modified list only when a match was found. -/
def update (hash : String → String) (ledger : List Transaction) (id : String)
    (t : Transaction) : Bool × List Transaction :=
  let r := replaceFirst hash id t ledger
  if r.1 then (true, r.2) else (false, ledger)

end CSVRepository

/-- A sample transaction used to instantiate repository theorems. -/
def sampleTxn : Transaction :=
  ⟨⟨2026, 1, 3, 18, 42, 0⟩, "STORE", ⟨"12.5"⟩, "USD", "BAC", "1234", "", none⟩

/-- A second sample transaction with a different identity. -/
def sampleTxn2 : Transaction :=
  ⟨⟨2026, 1, 4, 9, 0, 0⟩, "CAFE", ⟨"4.75"⟩, "CRC", "Davibank", "5678", "", none⟩

/-- An edited version of `sampleTxn` (different amount, hence identity). -/
def sampleTxn3 : Transaction :=
  ⟨⟨2026, 1, 3, 18, 42, 0⟩, "STORE", ⟨"99.0"⟩, "USD", "BAC", "1234", "edited", none⟩

open CSVRepository in
/-- C2: ingestion is idempotent. `save` inserts iff the id is absent and
returns whether the insert happened; after a successful `save(t)` a second
`save(t)` returns false and leaves the record list unchanged; and
`save_many [t, t]` against a ledger not containing `t` inserts `t` exactly
once and counts it once. -/
theorem save_idempotent (hash : String → String) (ledger : List Transaction)
    (t : Transaction) :
    ((save hash ledger t).1 = true ↔
      existsId hash ledger (t.global_id hash) = false) ∧
    ((save hash ledger t).1 = true → (save hash ledger t).2 = ledger ++ [t]) ∧
    ((save hash ledger t).1 = false → (save hash ledger t).2 = ledger) ∧
    ((save hash ledger t).1 = true →
      save hash (save hash ledger t).2 t = (false, (save hash ledger t).2)) ∧
    (existsId hash ledger (t.global_id hash) = false →
      save_many hash ledger [t, t] = (1, ledger ++ [t])) := by
  by_cases h : existsId hash ledger (t.global_id hash)
  · refine ⟨by simp [save, h], by simp [save, h], by simp [save, h],
      by simp [save, h], by simp [h]⟩
  · have hni : t.global_id hash ∉ existingIds hash ledger := by
      simpa [existsId] using h
    have hmem : existsId hash (ledger ++ [t]) (t.global_id hash) = true := by
      simp [existsId, existingIds]
    refine ⟨by simp [save, h], by simp [save, h], by simp [save, h], ?_, ?_⟩
    · intro _
      simp only [save, h, if_false]
      simp [save, hmem]
    · intro _
      simp [save_many, saveManyAux, hni]

open CSVRepository in
/-- Witness for C2: a fresh save of the sample transaction followed by a
second save of the same transaction is rejected, and a twice-repeated batch
inserts once. -/
theorem save_idempotent_witness :
    save (fun s => s) ((save (fun s => s) [] sampleTxn).2) sampleTxn =
      (false, (save (fun s => s) [] sampleTxn).2) ∧
    save_many (fun s => s) [] [sampleTxn, sampleTxn] = (1, [] ++ [sampleTxn]) :=
  ⟨(save_idempotent (fun s => s) [] sampleTxn).2.2.2.1 (by decide),
    (save_idempotent (fun s => s) [] sampleTxn).2.2.2.2 (by decide)⟩

open CSVRepository in
/-- Counterexample to C3 as stated: `delete` removes every row whose
identity matches, not only the first. In a reachable state holding two rows
with the same identity — built by `save`, `save`, then an `update` that
rewrites the second row to a duplicate of the first — `delete` removes both
rows, leaving 0 records where removing exactly the first would leave 1. -/
theorem delete_first_only_cex :
    (update (fun s => s)
        ((save (fun s => s) ((save (fun s => s) [] sampleTxn).2) sampleTxn2).2)
        (sampleTxn2.global_id (fun s => s)) sampleTxn).2 =
      [sampleTxn, sampleTxn] ∧
    delete (fun s => s) [sampleTxn, sampleTxn]
        (sampleTxn.global_id (fun s => s)) =
      (true, ([] : List Transaction)) := by decide

open CSVRepository in
/-- C3 (amended): `delete(id)` removes every record whose identity equals
`id` — equivalently, the first one when only one matches — and returns true
iff some record matched; on no match it returns false and leaves the ledger
unchanged; the result is always a sublist of the original, and for a ledger
with exactly one matching record it holds exactly N−1 records. -/
theorem delete_spec (hash : String → String) (ledger : List Transaction)
    (id : String) :
    ((delete hash ledger id).1 = true ↔
      ∃ t ∈ ledger, t.global_id hash = id) ∧
    ((delete hash ledger id).1 = false → (delete hash ledger id).2 = ledger) ∧
    ((delete hash ledger id).1 = true →
      (delete hash ledger id).2 =
        ledger.filter (fun t => t.global_id hash != id)) ∧
    List.Sublist (delete hash ledger id).2 ledger ∧
    (ledger.countP (fun t => t.global_id hash == id) = 1 →
      (delete hash ledger id).2.length + 1 = ledger.length) := by
  have hflen : (ledger.filter (fun t => t.global_id hash != id)).length =
      ledger.countP (fun t => t.global_id hash != id) :=
    (List.countP_eq_length_filter _ ledger).symm
  have hsum : ledger.length = ledger.countP (fun t => t.global_id hash == id) +
      ledger.countP (fun t => t.global_id hash != id) := by
    have h := List.length_eq_countP_add_countP (l := ledger)
      (fun t => t.global_id hash == id)
    have he : (fun t : Transaction => decide ¬(t.global_id hash == id) = true) =
        (fun t : Transaction => t.global_id hash != id) := by
      funext t
      cases hgt : t.global_id hash == id <;> simp [bne, hgt]
    rw [he] at h
    exact h
  by_cases hc : (ledger.filter (fun t => t.global_id hash != id)).length =
      ledger.length
  · have hall : ∀ t ∈ ledger, (t.global_id hash != id) = true :=
      List.filter_length_eq_length.mp hc
    have hdel : delete hash ledger id = (false, ledger) := by simp [delete, hc]
    refine ⟨?_, ?_, ?_, ?_, ?_⟩
    · rw [hdel]
      constructor
      · intro habs; exact absurd habs (by simp)
      · rintro ⟨t, ht, hgid⟩
        have := hall t ht
        simp [hgid] at this
    · intro _; rw [hdel]
    · intro habs; rw [hdel] at habs; exact absurd habs (by simp)
    · rw [hdel]
    · intro h1; omega
  · have hex : ∃ t ∈ ledger, t.global_id hash = id := by
      have hnall : ¬ ∀ t ∈ ledger, (t.global_id hash != id) = true :=
        fun hall => hc (List.filter_length_eq_length.mpr hall)
      push_neg at hnall
      obtain ⟨t, ht, hne⟩ := hnall
      exact ⟨t, ht, by simpa using hne⟩
    have hdel : delete hash ledger id =
        (true, ledger.filter (fun t => t.global_id hash != id)) := by
      simp [delete, hc]
    refine ⟨?_, ?_, ?_, ?_, ?_⟩
    · rw [hdel]; simpa using hex
    · intro habs; rw [hdel] at habs; exact absurd habs (by simp)
    · intro _; rw [hdel]
    · rw [hdel]; exact List.filter_sublist ledger
    · intro h1
      have h2 : (delete hash ledger id).2 =
          ledger.filter (fun t => t.global_id hash != id) := by rw [hdel]
      rw [h2]
      omega

open CSVRepository in
/-- Witness for C3 (amended): deleting one of two saved records with
distinct identities leaves exactly one. -/
theorem delete_spec_witness :
    (delete (fun s => s) [sampleTxn, sampleTxn2]
        (sampleTxn.global_id (fun s => s))).2.length + 1 =
      ([sampleTxn, sampleTxn2] : List Transaction).length :=
  (delete_spec (fun s => s) [sampleTxn, sampleTxn2] _).2.2.2.2 (by decide)

open CSVRepository in
/-- C10: after a successful `delete(id)` the identity is fully absent:
`exists id` is false on the resulting ledger and no remaining record has
`global_id` equal to `id`, even when several records shared that identity. -/
theorem delete_removes_identity (hash : String → String)
    (ledger : List Transaction) (id : String)
    (h : (delete hash ledger id).1 = true) :
    existsId hash (delete hash ledger id).2 id = false ∧
    ∀ t ∈ (delete hash ledger id).2, t.global_id hash ≠ id := by
  by_cases hc : (ledger.filter (fun t => t.global_id hash != id)).length =
      ledger.length
  · exact absurd h (by simp [delete, hc])
  · have hdel : delete hash ledger id =
        (true, ledger.filter (fun t => t.global_id hash != id)) := by
      simp [delete, hc]
    rw [hdel]
    have hmem : ∀ t ∈ ledger.filter (fun t => t.global_id hash != id),
        t.global_id hash ≠ id := by
      intro t ht
      have := (List.mem_filter.mp ht).2
      simpa using this
    refine ⟨?_, hmem⟩
    simp only [existsId, existingIds, decide_eq_false_iff_not]
    rintro hin
    obtain ⟨t, ht, hgid⟩ := List.mem_map.mp hin
    exact hmem t ht hgid

open CSVRepository in
/-- Witness for C10 on a ledger holding two rows with the same identity:
after the delete, the identity no longer occurs. -/
theorem delete_removes_identity_witness :
    existsId (fun s => s)
        (delete (fun s => s) [sampleTxn, sampleTxn]
          (sampleTxn.global_id (fun s => s))).2
        (sampleTxn.global_id (fun s => s)) = false ∧
    ∀ t ∈ (delete (fun s => s) [sampleTxn, sampleTxn]
        (sampleTxn.global_id (fun s => s))).2,
      t.global_id (fun s => s) ≠ sampleTxn.global_id (fun s => s) :=
  delete_removes_identity (fun s => s) [sampleTxn, sampleTxn] _ (by decide)

theorem getElem?_append_cons {α : Type} (pre post : List α) (a b : α) (j : ℕ)
    (hj : j ≠ pre.length) : (pre ++ a :: post)[j]? = (pre ++ b :: post)[j]? := by
  rw [List.getElem?_append, List.getElem?_append]
  by_cases h : j < pre.length
  · simp [h]
  · rw [if_neg h, if_neg h]
    obtain ⟨k, hk⟩ : ∃ k, j - pre.length = k + 1 := ⟨j - pre.length - 1, by omega⟩
    rw [hk]
    simp

open CSVRepository in
theorem replaceFirst_spec (hash : String → String) (id : String) (t : Transaction) :
    ∀ l : List Transaction,
      ((replaceFirst hash id t l).1 = false →
        (replaceFirst hash id t l).2 = l ∧ ∀ x ∈ l, x.global_id hash ≠ id) ∧
      ((replaceFirst hash id t l).1 = true →
        ∃ pre x post, l = pre ++ x :: post ∧
          (∀ y ∈ pre, y.global_id hash ≠ id) ∧ x.global_id hash = id ∧
          (replaceFirst hash id t l).2 = pre ++ t :: post)
  | [] => by simp [replaceFirst]
  | x :: xs => by
    have ih := replaceFirst_spec hash id t xs
    by_cases hx : x.global_id hash = id
    · refine ⟨?_, ?_⟩
      · intro hfalse
        simp [replaceFirst, hx] at hfalse
      · intro _
        exact ⟨[], x, xs, rfl, by simp, hx, by simp [replaceFirst, hx]⟩
    · refine ⟨?_, ?_⟩
      · intro hfalse
        have h1 : (replaceFirst hash id t xs).1 = false := by
          simpa [replaceFirst, hx] using hfalse
        obtain ⟨h2, h3⟩ := ih.1 h1
        refine ⟨by simp [replaceFirst, hx, h2], ?_⟩
        intro y hy
        rcases List.mem_cons.mp hy with rfl | hy'
        · exact hx
        · exact h3 y hy'
      · intro htrue
        have h1 : (replaceFirst hash id t xs).1 = true := by
          simpa [replaceFirst, hx] using htrue
        obtain ⟨pre, z, post, heq, hpre, hz, hres⟩ := ih.2 h1
        refine ⟨x :: pre, z, post, by rw [List.cons_append, heq], ?_, hz, ?_⟩
        · intro y hy
          rcases List.mem_cons.mp hy with rfl | hy'
          · exact hx
          · exact hpre y hy'
        · simp [replaceFirst, hx, hres]

open CSVRepository in
/-- C4: `update(id, t)` replaces the first record whose identity equals `id`
with `t` (whose own computed identity may differ) and returns true, returns
false leaving the ledger unchanged when no record matches, and changes
nothing else: the prefix before the match and the suffix after it are
exactly the original records, so every position other than the matched one
is unchanged. -/
theorem update_spec (hash : String → String) (ledger : List Transaction)
    (id : String) (t : Transaction) :
    ((update hash ledger id t).1 = true ↔
      ∃ x ∈ ledger, x.global_id hash = id) ∧
    ((update hash ledger id t).1 = false → (update hash ledger id t).2 = ledger) ∧
    ((update hash ledger id t).1 = true →
      ∃ pre x post, ledger = pre ++ x :: post ∧
        (∀ y ∈ pre, y.global_id hash ≠ id) ∧ x.global_id hash = id ∧
        (update hash ledger id t).2 = pre ++ t :: post ∧
        ∀ j : ℕ, j ≠ pre.length →
          (update hash ledger id t).2[j]? = ledger[j]?) := by
  cases hr : (replaceFirst hash id t ledger).1 with
  | false =>
    obtain ⟨h2, hall⟩ := (replaceFirst_spec hash id t ledger).1 hr
    have hupd : update hash ledger id t = (false, ledger) := by
      simp [update, hr]
    refine ⟨?_, ?_, ?_⟩
    · rw [hupd]
      constructor
      · intro habs; exact absurd habs (by simp)
      · rintro ⟨x, hx, hgid⟩; exact absurd hgid (hall x hx)
    · intro _; rw [hupd]
    · intro habs; rw [hupd] at habs; exact absurd habs (by simp)
  | true =>
    obtain ⟨pre, x, post, heq, hpre, hx, hres⟩ :=
      (replaceFirst_spec hash id t ledger).2 hr
    have hupd : update hash ledger id t =
        (true, (replaceFirst hash id t ledger).2) := by
      simp [update, hr]
    refine ⟨?_, ?_, ?_⟩
    · rw [hupd]
      exact ⟨fun _ => ⟨x, by simp [heq], hx⟩, fun _ => rfl⟩
    · intro habs; rw [hupd] at habs; exact absurd habs (by simp)
    · intro _
      refine ⟨pre, x, post, heq, hpre, hx, ?_, ?_⟩
      · rw [hupd]; exact hres
      · intro j hj
        have h2 : (update hash ledger id t).2 = pre ++ t :: post := by
          rw [hupd]; exact hres
        rw [h2, heq]
        exact getElem?_append_cons pre post t x j hj

open CSVRepository in
/-- Witness for C4: updating the first of two saved records replaces
exactly it, the other record being untouched at its position. -/
theorem update_spec_witness :
    ∃ pre x post, ([sampleTxn, sampleTxn2] : List Transaction) = pre ++ x :: post ∧
      (∀ y ∈ pre, y.global_id (fun s => s) ≠ sampleTxn.global_id (fun s => s)) ∧
      x.global_id (fun s => s) = sampleTxn.global_id (fun s => s) ∧
      (update (fun s => s) [sampleTxn, sampleTxn2]
        (sampleTxn.global_id (fun s => s)) sampleTxn3).2 = pre ++ sampleTxn3 :: post ∧
      ∀ j : ℕ, j ≠ pre.length →
        (update (fun s => s) [sampleTxn, sampleTxn2]
          (sampleTxn.global_id (fun s => s)) sampleTxn3).2[j]? =
        ([sampleTxn, sampleTxn2] : List Transaction)[j]? :=
  (update_spec (fun s => s) [sampleTxn, sampleTxn2]
    (sampleTxn.global_id (fun s => s)) sampleTxn3).2.2 (by decide)

/-! ### Message contract and the strategy registry
(`app/adapters/imap_client.py`, `app/parsers/base.py`, `app/parsers/factory.py`) -/

/-- A calendar date (`datetime.date`), as carried by a message. -/
structure Date where
  year : Nat
  month : Nat
  day : Nat
deriving DecidableEq, Repr

/-- `EmailMessage` (`app/adapters/imap_client.py`): the normalized inbound
message contract. An absent body is the empty string. -/
structure EmailMessage where
  uid : String
  sender : String
  subject : String
  date : Date
  html_body : String
  text_body : String
deriving DecidableEq, Repr

/-- A parser strategy's capability interface (`ParserStrategy`, `base.py`):
institution name, ownership predicate, extraction function. -/
structure ParserStrategy where
  institution : String
  can_parse : EmailMessage → Bool
  parse : EmailMessage → Option Transaction

/-- `ParserFactory.get_strategy`: scan the registered strategies in order
and return the first whose `can_parse` accepts the message. -/
def get_strategy : List ParserStrategy → EmailMessage → Option ParserStrategy
  | [], _ => none
  | s :: rest, email =>
    if s.can_parse email then some s else get_strategy rest email

/-- `ParserFactory.register_strategy`: append a strategy to the list. -/
def register_strategy (strategies : List ParserStrategy) (s : ParserStrategy) :
    List ParserStrategy :=
  strategies ++ [s]

/-- `ParserFactory.supported_institutions`. -/
def supported_institutions (strategies : List ParserStrategy) : List String :=
  strategies.map (fun s => s.institution)

theorem get_strategy_first : ∀ (l : List ParserStrategy) (email : EmailMessage),
    (get_strategy l email = none ↔ ∀ s ∈ l, s.can_parse email = false) ∧
    (∀ s, get_strategy l email = some s →
      s.can_parse email = true ∧ ∃ pre post, l = pre ++ s :: post ∧
        ∀ y ∈ pre, y.can_parse email = false)
  | [], email => by simp [get_strategy]
  | x :: rest, email => by
    have ih := get_strategy_first rest email
    by_cases hx : x.can_parse email
    · refine ⟨?_, ?_⟩
      · constructor
        · intro habs; rw [get_strategy, if_pos hx] at habs; exact absurd habs (by simp)
        · intro hall; exact absurd (hall x (by simp)) (by simp [hx])
      · intro s hs
        rw [get_strategy, if_pos hx] at hs
        obtain rfl : x = s := by simpa using hs
        exact ⟨hx, [], rest, rfl, by simp⟩
    · have hxf : x.can_parse email = false := by simpa using hx
      refine ⟨?_, ?_⟩
      · rw [get_strategy, if_neg hx]
        constructor
        · intro hn s hs
          rcases List.mem_cons.mp hs with rfl | hs'
          · exact hxf
          · exact ih.1.mp hn s hs'
        · intro hall
          exact ih.1.mpr (fun s hs => hall s (by simp [hs]))
      · intro s hs
        rw [get_strategy, if_neg hx] at hs
        obtain ⟨hcp, pre, post, heq, hpre⟩ := ih.2 s hs
        refine ⟨hcp, x :: pre, post, by rw [List.cons_append, heq], ?_⟩
        intro y hy
        rcases List.mem_cons.mp hy with rfl | hy'
        · exact hxf
        · exact hpre y hy'

/-- C8: the registry returns the first strategy in registration order whose
`can_parse` holds (so a message matching several strategies is handled only
by the first-registered matching one), returns none when no predicate
holds, and `register_strategy` appends at the end without changing the
position of any existing strategy. -/
theorem registry_dispatch_spec (strategies : List ParserStrategy)
    (email : EmailMessage) (s : ParserStrategy) :
    (get_strategy strategies email = none ↔
      ∀ x ∈ strategies, x.can_parse email = false) ∧
    (∀ x, get_strategy strategies email = some x →
      x.can_parse email = true ∧ ∃ pre post, strategies = pre ++ x :: post ∧
        ∀ y ∈ pre, y.can_parse email = false) ∧
    (∀ j, j < strategies.length →
      (register_strategy strategies s)[j]? = strategies[j]?) ∧
    (register_strategy strategies s)[strategies.length]? = some s := by
  refine ⟨(get_strategy_first strategies email).1,
    (get_strategy_first strategies email).2, ?_, ?_⟩
  · intro j hj
    rw [register_strategy, List.getElem?_append, if_pos hj]
  · rw [register_strategy, List.getElem?_append, if_neg (by omega)]
    simp

/-- Witness for C8: with two registered strategies whose predicates both
accept the message, dispatch selects the first; the second is behind it. -/
theorem registry_dispatch_spec_witness :
    (⟨"BAC", fun _ => true, fun _ => none⟩ : ParserStrategy).can_parse
        ⟨"1", "a@b", "s", ⟨2026, 1, 3⟩, "", "x"⟩ = true ∧
    ∃ pre post,
      ([⟨"BAC", fun _ => true, fun _ => none⟩,
        ⟨"Davibank", fun _ => true, fun _ => none⟩] : List ParserStrategy) =
        pre ++ (⟨"BAC", fun _ => true, fun _ => none⟩ : ParserStrategy) :: post ∧
      ∀ y ∈ pre, y.can_parse ⟨"1", "a@b", "s", ⟨2026, 1, 3⟩, "", "x"⟩ = false :=
  (registry_dispatch_spec
      [⟨"BAC", fun _ => true, fun _ => none⟩,
        ⟨"Davibank", fun _ => true, fun _ => none⟩]
      ⟨"1", "a@b", "s", ⟨2026, 1, 3⟩, "", "x"⟩
      ⟨"BAC", fun _ => true, fun _ => none⟩).2.1
    ⟨"BAC", fun _ => true, fun _ => none⟩ rfl

/-! ### Institution strategies at their boundary
(`app/parsers/strategies/bac.py`, `davibank.py`, `davivienda.py`)

The field extractors are regex routines over the selected body text; for
the boundary claims they are abstracted as one extraction function that
either returns the extracted fields or faults (a Python exception raised
inside the `try` block). The `parse` control flow — text selection,
extraction under `try`, validation, `except Exception: return None` — is
embedded from the source. -/

/-- The fields produced inside `parse`'s `try` block. -/
structure ExtractResult where
  merchant : String
  amount : PyFloat
  currency : String
  card_last4 : String
  timestamp : DateTime

/-- An internal fault during extraction (a Python exception). -/
structure Fault where
  message : String

/-- BAC body-text selection: HTML-derived text when `html_body` is
non-empty (BeautifulSoup rendering abstracted as `htmlToText`), else the
plain text body, else no text at all. -/
def bacText (htmlToText : String → String) (email : EmailMessage) :
    Option String :=
  if email.html_body ≠ "" then some (htmlToText email.html_body)
  else if email.text_body ≠ "" then some email.text_body
  else none

/-- Davibank/Davivienda body-text selection:
`text = email.text_body or email.html_body`. -/
def daviText (email : EmailMessage) : Option String :=
  if email.text_body ≠ "" then some email.text_body
  else if email.html_body ≠ "" then some email.html_body
  else none

/-- The shared `parse` control flow of the strategies: select body text,
run the extractors inside `try`, validate that merchant and card suffix
are non-empty (the amount, a float, is never `None`), and build the
transaction; a validation failure or any fault yields `none`. -/
def parseBoundary (institution : String)
    (extract : String → Except Fault ExtractResult)
    (textOf : EmailMessage → Option String) (email : EmailMessage) :
    Option Transaction :=
  match textOf email with
  | none => none
  | some text =>
    match extract text with
    | .error _ => none
    | .ok r =>
      if r.merchant = "" ∨ r.card_last4 = "" then none
      else some ⟨r.timestamp, r.merchant, r.amount, r.currency, institution,
        r.card_last4, "", none⟩

/-- `BACParserStrategy.parse`. -/
def bacParse (htmlToText : String → String)
    (extract : String → Except Fault ExtractResult) (email : EmailMessage) :
    Option Transaction :=
  parseBoundary "BAC" extract (bacText htmlToText) email

/-- `DaviviendaParserStrategy.parse`. -/
def daviviendaParse (extract : String → Except Fault ExtractResult)
    (email : EmailMessage) : Option Transaction :=
  parseBoundary "Davivienda" extract daviText email

/-- C5: each strategy's parse is total at its boundary: it always yields a
value of the failure-or-transaction type (never an escaping exception —
the embedding is a total function into `Option`), and it yields the
failure result `none` both on any internal fault during extraction and on
validation failure (empty merchant or empty card suffix). -/
theorem parse_total_boundary (htmlToText : String → String)
    (extractB extractD : String → Except Fault ExtractResult)
    (email : EmailMessage) :
    (bacParse htmlToText extractB email = none ∨
      ∃ t, bacParse htmlToText extractB email = some t) ∧
    (daviviendaParse extractD email = none ∨
      ∃ t, daviviendaParse extractD email = some t) ∧
    (∀ text f, bacText htmlToText email = some text →
      extractB text = .error f → bacParse htmlToText extractB email = none) ∧
    (∀ text r, bacText htmlToText email = some text → extractB text = .ok r →
      r.merchant = "" ∨ r.card_last4 = "" →
      bacParse htmlToText extractB email = none) ∧
    (∀ text f, daviText email = some text → extractD text = .error f →
      daviviendaParse extractD email = none) ∧
    (∀ text r, daviText email = some text → extractD text = .ok r →
      r.merchant = "" ∨ r.card_last4 = "" →
      daviviendaParse extractD email = none) := by
  refine ⟨?_, ?_, ?_, ?_, ?_, ?_⟩
  · rcases h : bacParse htmlToText extractB email with _ | t
    · exact Or.inl rfl
    · exact Or.inr ⟨t, rfl⟩
  · rcases h : daviviendaParse extractD email with _ | t
    · exact Or.inl rfl
    · exact Or.inr ⟨t, rfl⟩
  · intro text f htext herr
    simp [bacParse, parseBoundary, htext, herr]
  · intro text r htext hok hval
    simp [bacParse, parseBoundary, htext, hok, hval]
  · intro text f htext herr
    simp [daviviendaParse, parseBoundary, htext, herr]
  · intro text r htext hok hval
    simp [daviviendaParse, parseBoundary, htext, hok, hval]

/-- Witness for C5: a faulting extraction and an empty-merchant extraction
both produce the failure result on a concrete message. -/
theorem parse_total_boundary_witness :
    bacParse (fun s => s) (fun _ => .error ⟨"boom"⟩)
      ⟨"1", "a@b", "s", ⟨2026, 1, 3⟩, "", "cuerpo"⟩ = none ∧
    daviviendaParse
      (fun _ => .ok ⟨"", ⟨"1.0"⟩, "USD", "1234", ⟨2026, 1, 3, 0, 0, 0⟩⟩)
      ⟨"1", "a@b", "s", ⟨2026, 1, 3⟩, "", "cuerpo"⟩ = none :=
  ⟨(parse_total_boundary (fun s => s) (fun _ => .error ⟨"boom"⟩)
      (fun _ => .error ⟨"boom"⟩)
      ⟨"1", "a@b", "s", ⟨2026, 1, 3⟩, "", "cuerpo"⟩).2.2.1
      "cuerpo" ⟨"boom"⟩ rfl rfl,
    (parse_total_boundary (fun s => s)
      (fun _ => .ok ⟨"", ⟨"1.0"⟩, "USD", "1234", ⟨2026, 1, 3, 0, 0, 0⟩⟩)
      (fun _ => .ok ⟨"", ⟨"1.0"⟩, "USD", "1234", ⟨2026, 1, 3, 0, 0, 0⟩⟩)
      ⟨"1", "a@b", "s", ⟨2026, 1, 3⟩, "", "cuerpo"⟩).2.2.2.2.2
      "cuerpo" ⟨"", ⟨"1.0"⟩, "USD", "1234", ⟨2026, 1, 3, 0, 0, 0⟩⟩ rfl rfl
      (Or.inl rfl)⟩

/-! ### Timestamp extraction fallback -/

/-- `datetime.combine(email.date, datetime.min.time())`: the date at
midnight. -/
def combineMidnight (d : Date) : DateTime :=
  ⟨d.year, d.month, d.day, 0, 0, 0⟩

/-- BAC `_extract_timestamp`: try the Spanish-month pattern, then the
numeric `Fecha:` pattern (whose missing time group defaults to "00:00"),
else fall back to the message date at midnight. The two regex searches are
abstracted as finders, and the branch parsers (which catch their own
faults internally) as total functions. -/
def bacExtractTimestamp (findSpanish : String → Option String)
    (findNumeric : String → Option (String × Option String))
    (parseSp : String → DateTime) (parseNum : String → String → DateTime)
    (text : String) (email : EmailMessage) : DateTime :=
  match findSpanish text with
  | some m => parseSp m
  | none =>
    match findNumeric text with
    | some (d, tOpt) => parseNum d (tOpt.getD "00:00")
    | none => combineMidnight email.date

/-- Davibank `_extract_timestamp`: try the labeled day/time pattern (with
optional AM/PM group), then the fallback date patterns, else fall back to
the message date at midnight. -/
def davibankExtractTimestamp
    (findPrimary : String → Option (String × String × Option String))
    (findFallback : String → Option (String × Option String))
    (parseDate : String → Option String → Option String → DateTime)
    (text : String) (email : EmailMessage) : DateTime :=
  match findPrimary text with
  | some (d, tm, ampm) => parseDate d (some tm) ampm
  | none =>
    match findFallback text with
    | some (d, t) => parseDate d t none
    | none => combineMidnight email.date

/-- C9: the timestamp extractors always return a timestamp (they are total
functions — no exception escapes), and when no in-body date pattern
matches, both return exactly the message's date combined with midnight. -/
theorem extract_timestamp_fallback (findSpanish : String → Option String)
    (findNumeric : String → Option (String × Option String))
    (parseSp : String → DateTime) (parseNum : String → String → DateTime)
    (findPrimary : String → Option (String × String × Option String))
    (findFallback : String → Option (String × Option String))
    (parseDate : String → Option String → Option String → DateTime)
    (text : String) (email : EmailMessage) :
    (∃ d, bacExtractTimestamp findSpanish findNumeric parseSp parseNum
      text email = d) ∧
    (∃ d, davibankExtractTimestamp findPrimary findFallback parseDate
      text email = d) ∧
    (findSpanish text = none → findNumeric text = none →
      bacExtractTimestamp findSpanish findNumeric parseSp parseNum text email =
        combineMidnight email.date) ∧
    (findPrimary text = none → findFallback text = none →
      davibankExtractTimestamp findPrimary findFallback parseDate text email =
        combineMidnight email.date) := by
  refine ⟨⟨_, rfl⟩, ⟨_, rfl⟩, ?_, ?_⟩
  · intro h1 h2
    simp [bacExtractTimestamp, h1, h2]
  · intro h1 h2
    simp [davibankExtractTimestamp, h1, h2]

/-- Witness for C9: with no recognizable in-body date, both extractors
return January 3rd 2026 at midnight for a message dated that day. -/
theorem extract_timestamp_fallback_witness :
    bacExtractTimestamp (fun _ => none) (fun _ => none)
      (fun _ => ⟨1, 1, 1, 0, 0, 0⟩) (fun _ _ => ⟨1, 1, 1, 0, 0, 0⟩)
      "no date here" ⟨"1", "a@b", "s", ⟨2026, 1, 3⟩, "", "x"⟩ =
      combineMidnight ⟨2026, 1, 3⟩ ∧
    davibankExtractTimestamp (fun _ => none) (fun _ => none)
      (fun _ _ _ => ⟨1, 1, 1, 0, 0, 0⟩)
      "no date here" ⟨"1", "a@b", "s", ⟨2026, 1, 3⟩, "", "x"⟩ =
      combineMidnight ⟨2026, 1, 3⟩ :=
  ⟨(extract_timestamp_fallback (fun _ => none) (fun _ => none)
      (fun _ => ⟨1, 1, 1, 0, 0, 0⟩) (fun _ _ => ⟨1, 1, 1, 0, 0, 0⟩)
      (fun _ => none) (fun _ => none) (fun _ _ _ => ⟨1, 1, 1, 0, 0, 0⟩)
      "no date here" ⟨"1", "a@b", "s", ⟨2026, 1, 3⟩, "", "x"⟩).2.2.1 rfl rfl,
    (extract_timestamp_fallback (fun _ => none) (fun _ => none)
      (fun _ => ⟨1, 1, 1, 0, 0, 0⟩) (fun _ _ => ⟨1, 1, 1, 0, 0, 0⟩)
      (fun _ => none) (fun _ => none) (fun _ _ _ => ⟨1, 1, 1, 0, 0, 0⟩)
      "no date here" ⟨"1", "a@b", "s", ⟨2026, 1, 3⟩, "", "x"⟩).2.2.2 rfl rfl⟩

/-! ### Amount parsing (`bac.py _parse_amount_string`,
`davibank.py _parse_amount`, `davivienda.py _parse_amount`)

Python float arithmetic is modeled by exact decimal rationals: `float(s)`
of a decimal numeral is the rational the numeral denotes, `round(x, 2)` is
round-half-even at two fractional digits, and `int(x)` truncates toward
zero. On the two-decimal tokens of the claims these coincide in value with
the binary float computation. -/

/-- Does the second list start with the first? -/
def startsWithChars : List Char → List Char → Bool
  | [], _ => true
  | _ :: _, [] => false
  | a :: as, b :: bs => a = b && startsWithChars as bs

/-- Is `sub` a contiguous run of the second list? -/
def hasSubstring (sub : List Char) : List Char → Bool
  | [] => sub.isEmpty
  | c :: rest => startsWithChars sub (c :: rest) || hasSubstring sub rest

/-- Python `sub in s` substring membership. -/
def strContains (s sub : String) : Bool := hasSubstring sub.data s.data

/-- Python `str.lower()` (ASCII case folding suffices for the keywords
involved). -/
def lowerStr (s : String) : String := String.mk (s.data.map Char.toLower)

/-- `re.sub(r"[^\d.,]", "", s)`: keep only digits, dots and commas. -/
def keepNumeric (s : String) : List Char :=
  s.data.filter (fun c => c.isDigit || c = '.' || c = ',')

/-- Python `str.rfind`: index of the last occurrence. -/
def rfindIdx (c : Char) : List Char → Option Nat
  | [] => none
  | x :: xs =>
    match rfindIdx c xs with
    | some i => some (i + 1)
    | none => if x = c then some 0 else none

/-- Python `str.split(c)`. -/
def splitOnChar (c : Char) : List Char → List (List Char)
  | [] => [[]]
  | x :: xs =>
    let r := splitOnChar c xs
    if x = c then [] :: r
    else
      match r with
      | [] => [[x]]
      | h :: t => (x :: h) :: t

/-- The shared separator disambiguation: with both `,` and `.` present the
one occurring last is the decimal separator and the other is stripped;
with only `,` present it is decimal iff the trailing group has exactly two
digits, else stripped. -/
def normalizeSeparators (numeric : List Char) : List Char :=
  if numeric.contains ',' && numeric.contains '.' then
    match rfindIdx ',' numeric, rfindIdx '.' numeric with
    | some i, some j =>
      if j < i then
        (numeric.filter (fun c => c ≠ '.')).map (fun c => if c = ',' then '.' else c)
      else numeric.filter (fun c => c ≠ ',')
    | _, _ => numeric
  else if numeric.contains ',' then
    if ((splitOnChar ',' numeric).getLastD []).length = 2 then
      numeric.map (fun c => if c = ',' then '.' else c)
    else numeric.filter (fun c => c ≠ ',')
  else numeric

/-- Decimal value of a digit string. -/
def natOfDigits (l : List Char) : ℕ :=
  l.foldl (fun acc c => 10 * acc + (c.toNat - 48)) 0

/-- The numeral recognized by Python `float(s)` on the post-normalization
strings (digits and at most one dot, with at least one digit): integer
part value, fractional part value and fractional digit count; `none` is a
`ValueError`. -/
def parseDecimalParts (l : List Char) : Option (ℕ × ℕ × ℕ) :=
  if l.contains ',' then none
  else
    match splitOnChar '.' l with
    | [ip] =>
      if ip ≠ [] && ip.all Char.isDigit then some (natOfDigits ip, 0, 0)
      else none
    | [ip, fp] =>
      if (ip ++ fp) ≠ [] && ip.all Char.isDigit && fp.all Char.isDigit then
        some (natOfDigits ip, natOfDigits fp, fp.length)
      else none
    | _ => none

/-- Python `float(s)`: the decimal rational the recognized numeral
denotes, or failure. -/
def parsePyFloat (l : List Char) : Option ℚ :=
  (parseDecimalParts l).map fun p => (p.1 : ℚ) + (p.2.1 : ℚ) / (10 : ℚ) ^ p.2.2

/-- Round-half-even to an integer (Python's `round`). -/
def roundHalfEven (q : ℚ) : ℤ :=
  if q - ⌊q⌋ < 1/2 then ⌊q⌋
  else if 1/2 < q - ⌊q⌋ then ⌊q⌋ + 1
  else if ⌊q⌋ % 2 = 0 then ⌊q⌋ else ⌊q⌋ + 1

/-- Python `round(q, 2)`. -/
def round2 (q : ℚ) : ℚ := (roundHalfEven (q * 100) : ℚ) / 100

/-- Python `int(q)`: truncation toward zero. -/
def pyTruncInt (q : ℚ) : ℤ := if 0 ≤ q then ⌊q⌋ else ⌈q⌉

namespace BACParserStrategy

/-- The currency classification at the head of `_parse_amount_string`:
`CRC` when the token mentions `CRC`, `₡` or `colones`, else `USD`. -/
def bacCurrency (amount_str : String) : String :=
  if strContains amount_str "CRC" || strContains amount_str "₡" ||
      strContains (lowerStr amount_str) "colones" then "CRC" else "USD"

/-- BAC `_parse_amount_string`: classify the currency from the token, strip
non-numeric characters, disambiguate separators, parse as a decimal
rounded to 2 digits; `(0.0, currency)` on parse failure. -/
def _parse_amount_string (amount_str : String) : ℚ × String :=
  match parsePyFloat (normalizeSeparators (keepNumeric amount_str)) with
  | some q => (round2 q, bacCurrency amount_str)
  | none => (0, bacCurrency amount_str)

end BACParserStrategy

namespace DavibankParserStrategy

/-- Davibank `_parse_amount`: same separator handling, value in decimal
currency units rounded to 2 digits; `0.0` on parse failure. -/
def _parse_amount (amount_str : String) : ℚ :=
  match parsePyFloat (normalizeSeparators (keepNumeric amount_str)) with
  | some q => round2 q
  | none => 0

end DavibankParserStrategy

namespace DaviviendaParserStrategy

/-- Davivienda `_parse_amount`: same separator handling, but the value is
`int(float(numeric) * 100)` — integer minor units; `0` on parse failure. -/
def _parse_amount (amount_str : String) : ℤ :=
  match parsePyFloat (normalizeSeparators (keepNumeric amount_str)) with
  | some q => pyTruncInt (q * 100)
  | none => 0

end DaviviendaParserStrategy

theorem bac_eval (a b c : ℕ) {s cur : String} {q : ℚ}
    (hp : parseDecimalParts (normalizeSeparators (keepNumeric s)) = some (a, b, c))
    (hcur : BACParserStrategy.bacCurrency s = cur)
    (hval : round2 ((a : ℚ) + (b : ℚ) / (10 : ℚ) ^ c) = q) :
    BACParserStrategy._parse_amount_string s = (q, cur) := by
  simp only [BACParserStrategy._parse_amount_string, parsePyFloat, hp,
    Option.map_some']
  rw [hval, hcur]

theorem davibank_eval (a b c : ℕ) {s : String} {q : ℚ}
    (hp : parseDecimalParts (normalizeSeparators (keepNumeric s)) = some (a, b, c))
    (hval : round2 ((a : ℚ) + (b : ℚ) / (10 : ℚ) ^ c) = q) :
    DavibankParserStrategy._parse_amount s = q := by
  simp only [DavibankParserStrategy._parse_amount, parsePyFloat, hp,
    Option.map_some']
  rw [hval]

theorem davivienda_eval (a b c : ℕ) {s : String} {z : ℤ}
    (hp : parseDecimalParts (normalizeSeparators (keepNumeric s)) = some (a, b, c))
    (hval : pyTruncInt (((a : ℚ) + (b : ℚ) / (10 : ℚ) ^ c) * 100) = z) :
    DaviviendaParserStrategy._parse_amount s = z := by
  simp only [DaviviendaParserStrategy._parse_amount, parsePyFloat, hp,
    Option.map_some']
  rw [hval]

/-- C6: separator disambiguation at the spec's four tokens for the two
extractors cited: `1,234.56` and `1.234,56` both denote 1234.56, `12,34`
denotes 12.34 (two-digit trailing group), and `CRC 1,500` denotes 1500
with currency CRC. -/
theorem amount_disambiguation :
    BACParserStrategy._parse_amount_string "1,234.56" = (123456/100, "USD") ∧
    BACParserStrategy._parse_amount_string "1.234,56" = (123456/100, "USD") ∧
    BACParserStrategy._parse_amount_string "12,34" = (1234/100, "USD") ∧
    BACParserStrategy._parse_amount_string "CRC 1,500" = (1500, "CRC") ∧
    DavibankParserStrategy._parse_amount "1,234.56" = 123456/100 ∧
    DavibankParserStrategy._parse_amount "1.234,56" = 123456/100 ∧
    DavibankParserStrategy._parse_amount "12,34" = 1234/100 ∧
    DavibankParserStrategy._parse_amount "CRC 1,500" = 1500 :=
  ⟨bac_eval 1234 56 2 (by decide) (by decide) (by norm_num [round2, roundHalfEven]),
    bac_eval 1234 56 2 (by decide) (by decide) (by norm_num [round2, roundHalfEven]),
    bac_eval 12 34 2 (by decide) (by decide) (by norm_num [round2, roundHalfEven]),
    bac_eval 1500 0 0 (by decide) (by decide) (by norm_num [round2, roundHalfEven]),
    davibank_eval 1234 56 2 (by decide) (by norm_num [round2, roundHalfEven]),
    davibank_eval 1234 56 2 (by decide) (by norm_num [round2, roundHalfEven]),
    davibank_eval 12 34 2 (by decide) (by norm_num [round2, roundHalfEven]),
    davibank_eval 1500 0 0 (by decide) (by norm_num [round2, roundHalfEven])⟩

/-- C7 fails on the code: the BAC extractor denotes amounts in decimal
currency units while the Davivienda extractor denotes integer minor units
(cents), so the same token `1,500` yields amount 1500 from one and 150000
from the other — the values stored into `Transaction.amount` differ. -/
theorem amount_representation_mismatch :
    BACParserStrategy._parse_amount_string "1,500" = (1500, "USD") ∧
    DaviviendaParserStrategy._parse_amount "1,500" = 150000 ∧
    ((DaviviendaParserStrategy._parse_amount "1,500" : ℚ) ≠
      (BACParserStrategy._parse_amount_string "1,500").1) := by
  have hb : BACParserStrategy._parse_amount_string "1,500" = (1500, "USD") :=
    bac_eval 1500 0 0 (by decide) (by decide) (by norm_num [round2, roundHalfEven])
  have hd : DaviviendaParserStrategy._parse_amount "1,500" = 150000 :=
    davivienda_eval 1500 0 0 (by decide) (by norm_num [pyTruncInt])
  refine ⟨hb, hd, ?_⟩
  rw [hb, hd]
  norm_num

end BudgetTracker
